import Mathlib

/-!
Shallow embedding of the `bufrw` crate (file `src/lib.rs`): a buffered
reader/writer adapter `BufReaderWriter` over a seekable byte stream,
together with its internal `Buffer` and the command-classification
functions.  Machine integers (`u64`, `usize`) are modelled as `Nat`;
every subtraction in the source is a `u64`/`usize` subtraction that the
code relies on not underflowing, and the theorems below carry the
corresponding inequalities as explicit hypotheses where they matter.
Bytes are modelled as `Nat` since the code only moves them around.

The underlying stream (instantiating the `Read + Write + Seek` bound) is
modelled as `MockStream`: an in-memory cursor with the semantics of
`std::io::Cursor<Vec<u8>>` (reads return `min(requested, remaining)`
bytes, writes pad with zeros past the end and extend the data), extended
with call counters for read/write/seek/flush so that absence of stream
I/O is expressible, and with an optional per-call cap `maxW` on how many
bytes one `write` call accepts (so that short-writing streams, which the
`Write` trait permits, are representable; `maxW = none` is the plain
cursor).
-/

/-- Errors observable from the adapter and the mock stream. -/
inductive IOError where
  /-- The `std::io::Error::other("Seeking before start")` error built in `seek`. -/
  | seekBeforeStart : IOError
  /-- `ErrorKind::WriteZero`, produced by `std::io::Write::write_all` when a
  write call accepts zero bytes. -/
  | writeZero : IOError
  /-- A cursor seek to a negative position. -/
  | negativeSeek : IOError
deriving Repr, DecidableEq

/-- Model of `std::io::SeekFrom`. -/
inductive SeekFrom where
  | start (p : Nat) : SeekFrom
  | fromEnd (o : Int) : SeekFrom
  | current (o : Int) : SeekFrom
deriving Repr, DecidableEq

/-- The underlying stream: an in-memory cursor plus instrumentation. -/
structure MockStream where
  data : List Nat
  pos : Nat
  /-- Optional cap on bytes accepted by a single write call (`none` = plain cursor). -/
  maxW : Option Nat
  reads : Nat
  writes : Nat
  seeks : Nat
  flushes : Nat
deriving Repr, DecidableEq

/-- One `Read::read` call: fills a prefix of `dst`, cursor semantics.
Returns (bytes read, updated dst, updated stream). -/
def MockStream.read (s : MockStream) (dst : List Nat) : Nat × List Nat × MockStream :=
  let avail := s.data.length - s.pos
  let n := min dst.length avail
  let bytes := (s.data.drop s.pos).take n
  (n, bytes ++ dst.drop n, { s with pos := s.pos + n, reads := s.reads + 1 })

/-- One `Write::write` call: accepts up to `maxW` bytes (all of them for the
plain cursor), padding with zeros if the cursor is past the end. -/
def MockStream.write (s : MockStream) (src : List Nat) : Nat × MockStream :=
  let n := match s.maxW with
    | none => src.length
    | some k => min src.length k
  let padded := s.data ++ List.replicate (s.pos - s.data.length) 0
  let newData := padded.take s.pos ++ src.take n ++ padded.drop (s.pos + n)
  (n, { s with data := newData, pos := s.pos + n, writes := s.writes + 1 })

/-- One `Seek::seek` call resolved to an absolute target (negative targets
error, like `std::io::Cursor`). -/
def MockStream.seekCall (s : MockStream) (target : Int) : Except IOError Nat × MockStream :=
  let s1 := { s with seeks := s.seeks + 1 }
  if target < 0 then (.error .negativeSeek, s1)
  else (.ok target.toNat, { s1 with pos := target.toNat })

/-- `Seek::seek` on the mock stream. -/
def MockStream.seek (s : MockStream) (sf : SeekFrom) : Except IOError Nat × MockStream :=
  match sf with
  | .start p => s.seekCall p
  | .fromEnd o => s.seekCall ((s.data.length : Int) + o)
  | .current o => s.seekCall ((s.pos : Int) + o)

/-- `Write::flush` on the mock stream: records the call. -/
def MockStream.flushStream (s : MockStream) : MockStream :=
  { s with flushes := s.flushes + 1 }

/-- `std::io::Write::write_all`: repeat `write` until all bytes are accepted,
failing with `WriteZero` if a call accepts nothing.  `fuel` bounds the
iteration; `fuel = src.length` always suffices since every successful
iteration consumes at least one byte. -/
def MockStream.writeAllAux (fuel : Nat) (s : MockStream) (src : List Nat) :
    Except IOError Unit × MockStream :=
  match fuel with
  | 0 => if src.isEmpty then (.ok (), s) else (.error .writeZero, s)
  | fuel + 1 =>
    if src.isEmpty then (.ok (), s)
    else
      let (n, s1) := s.write src
      if n = 0 then (.error .writeZero, s1)
      else MockStream.writeAllAux fuel s1 (src.drop n)

/-- `write_all` with enough fuel. -/
def MockStream.writeAll (s : MockStream) (src : List Nat) : Except IOError Unit × MockStream :=
  MockStream.writeAllAux src.length s src

/-- The internal `Buffer` of the crate (`struct Buffer`). -/
structure Buffer where
  data : List Nat
  pos : Nat
  filled : Nat
  is_dirty : Bool
deriving Repr, DecidableEq

/-- `Buffer::with_capacity`. -/
def Buffer.with_capacity (capacity : Nat) : Buffer :=
  { data := List.replicate capacity 0, pos := 0, filled := 0, is_dirty := false }

/-- `Buffer::capacity` (`self.data.len()`). -/
def Buffer.capacity (b : Buffer) : Nat := b.data.length

/-- `Buffer::has_readable_bytes_left` (`self.pos != self.filled`). -/
def Buffer.has_readable_bytes_left (b : Buffer) : Bool := b.pos != b.filled

/-- `Buffer::num_readable_bytes_left` (`self.filled - self.pos`, usize). -/
def Buffer.num_readable_bytes_left (b : Buffer) : Nat := b.filled - b.pos

/-- `Buffer::num_writable_bytes_left` (`self.capacity() - self.pos`, usize). -/
def Buffer.num_writable_bytes_left (b : Buffer) : Nat := b.capacity - b.pos

/-- `Buffer::num_valid_bytes` (`self.filled`). -/
def Buffer.num_valid_bytes (b : Buffer) : Nat := b.filled

/-- `Buffer::set_position` (`self.pos = pos.min(self.filled as u64) as usize`). -/
def Buffer.set_position (b : Buffer) (pos : Nat) : Buffer :=
  { b with pos := min pos b.filled }

/-- `Buffer::position`. -/
def Buffer.position (b : Buffer) : Nat := b.pos

/-- `Buffer::clear`. -/
def Buffer.clear (b : Buffer) : Buffer :=
  { b with pos := 0, filled := 0, is_dirty := false }

/-- `Buffer::fill_from`: one `source.read(&mut self.data)` into the full
capacity-sized region, then `filled = n`, `pos = 0`, `is_dirty = false`.
Returns (bytes read, buffer, stream). -/
def Buffer.fill_from (b : Buffer) (source : MockStream) : Nat × Buffer × MockStream :=
  let (n, newData, s1) := source.read b.data
  (n, { b with data := newData, filled := n, pos := 0, is_dirty := false }, s1)

/-- `Buffer::dump`: `dst.write_all(&self.data[..self.filled])`, returning
`filled` on success.  Does not change the buffer. -/
def Buffer.dump (b : Buffer) (dst : MockStream) : Except IOError Nat × MockStream :=
  match dst.writeAll (b.data.take b.filled) with
  | (.ok _, s1) => (.ok b.filled, s1)
  | (.error e, s1) => (.error e, s1)

/-- `Buffer::read`: copy `min(num_readable_bytes_left, buf.len())` bytes out
starting at `pos`, advancing `pos`.  Returns (bytes read, updated buf,
updated buffer). -/
def Buffer.read (b : Buffer) (buf : List Nat) : Nat × List Nat × Buffer :=
  let n := min b.num_readable_bytes_left buf.length
  let bytes := (b.data.drop b.pos).take n
  (n, bytes ++ buf.drop n, { b with pos := b.pos + n })

/-- `Buffer::write`: copy `min(num_writable_bytes_left, buf.len())` bytes in
at `pos`, extending `filled` when the write goes past it and setting the
dirty flag; a zero-length copy returns early without touching the state. -/
def Buffer.write (b : Buffer) (buf : List Nat) : Nat × Buffer :=
  let n := min b.num_writable_bytes_left buf.length
  if n = 0 then (0, b)
  else
    let newFilled := if b.pos + n > b.filled then b.pos + n else b.filled
    let newData := b.data.take b.pos ++ buf.take n ++ b.data.drop (b.pos + n)
    (n, { b with data := newData, filled := newFilled, pos := b.pos + n, is_dirty := true })

/-- `enum ReadCommand`. -/
inductive ReadCommand where
  | Read (n : Nat) : ReadCommand
  | FillRead (dump_before_fill : Bool) : ReadCommand
  | ReadDirect (dump_before : Bool) : ReadCommand
deriving Repr, DecidableEq

/-- `enum ReadExactCommand`. -/
inductive ReadExactCommand where
  | Read : ReadExactCommand
  | ReadFillRead (split : Nat) (dump_before_fill : Bool) : ReadExactCommand
  | FillRead (dump_before_fill : Bool) : ReadExactCommand
  | ReadDirect (dump_before : Bool) : ReadExactCommand
  | ReadReadDirect (split : Nat) (dump_before : Bool) : ReadExactCommand
deriving Repr, DecidableEq

/-- `enum WriteAllCommand`. -/
inductive WriteAllCommand where
  | Write : WriteAllCommand
  | WriteDumpWrite (n : Nat) : WriteAllCommand
  | DumpWriteDirect : WriteAllCommand
  | WriteDirect : WriteAllCommand
deriving Repr, DecidableEq

/-- `Buffer::get_read_command` (the request only matters through its length). -/
def Buffer.get_read_command (b : Buffer) (len : Nat) : ReadCommand :=
  if b.has_readable_bytes_left then
    .Read (min len b.num_readable_bytes_left)
  else if len ≥ b.capacity then
    .ReadDirect b.is_dirty
  else
    .FillRead b.is_dirty

/-- `Buffer::get_read_exact_command`, including the final (dead) `else`
branch of the source. -/
def Buffer.get_read_exact_command (b : Buffer) (len : Nat) : ReadExactCommand :=
  if len ≥ b.capacity then
    if b.has_readable_bytes_left then
      .ReadReadDirect b.num_readable_bytes_left b.is_dirty
    else
      .ReadDirect b.is_dirty
  else if b.num_readable_bytes_left ≥ len then
    .Read
  else if b.num_readable_bytes_left < len then
    .ReadFillRead b.num_readable_bytes_left b.is_dirty
  else
    .FillRead b.is_dirty

/-- `Buffer::get_write_exact_command`. -/
def Buffer.get_write_exact_command (b : Buffer) (len : Nat) : WriteAllCommand :=
  if len ≥ b.capacity then
    if b.is_dirty && b.num_valid_bytes != 0 then
      .DumpWriteDirect
    else
      .WriteDirect
  else if b.num_writable_bytes_left ≥ len then
    .Write
  else
    .WriteDumpWrite b.num_writable_bytes_left

/-- The adapter `struct BufReaderWriter<T>` with `T = MockStream`. -/
structure RW where
  inner : MockStream
  pos : Nat
  n : Nat
  buffer : Buffer
deriving Repr, DecidableEq

/-- `BufReaderWriter::with_capacity`. -/
def RW.with_capacity (inner : MockStream) (capacity : Nat) : RW :=
  { inner := inner, pos := 0, n := 0, buffer := Buffer.with_capacity capacity }

/-- `BufReaderWriter::new` (`DEFAULT_CAPACITY = 8192`). -/
def RW.new (inner : MockStream) : RW := RW.with_capacity inner 8192

/-- `start_position_in_source` (`self.pos - self.n as u64`). -/
def RW.start_position_in_source (rw : RW) : Nat := rw.pos - rw.n

/-- `BufReaderWriter::position`. -/
def RW.position (rw : RW) : Nat := rw.start_position_in_source + rw.buffer.position

/-- `BufReaderWriter::capacity`. -/
def RW.capacity (rw : RW) : Nat := rw.buffer.capacity

/-- `BufReaderWriter::flush_buffer`: when `n != 0` seek the stream back by
`n`, then dump the whole valid region of the buffer and advance the
bookkeeping.  All operations return the (result, state) pair so that the
state after an error is the partially mutated one, as with `&mut self`. -/
def RW.flush_buffer (rw : RW) : Except IOError Unit × RW :=
  if rw.n ≠ 0 then
    match rw.inner.seek (.current (-(rw.n : Int))) with
    | (.error e, s1) => (.error e, { rw with inner := s1 })
    | (.ok p, s1) =>
      match rw.buffer.dump s1 with
      | (.ok k, s2) => (.ok (), { rw with inner := s2, pos := p + k, n := k })
      | (.error e, s2) => (.error e, { rw with inner := s2, pos := p })
  else
    match rw.buffer.dump rw.inner with
    | (.ok k, s2) => (.ok (), { rw with inner := s2, pos := rw.pos + k, n := k })
    | (.error e, s2) => (.error e, { rw with inner := s2 })

/-- The statement `if self.buffer.is_dirty { self.flush_buffer()?; }` that
precedes every delegate-to-stream seek branch. -/
def RW.flush_if_dirty (rw : RW) : Except IOError Unit × RW :=
  if rw.buffer.is_dirty then rw.flush_buffer else (.ok (), rw)

/-- The block `if dump { self.flush_buffer()?; self.buffer.clear(); self.n = 0; }`
that each dispatch arm of `read`, `read_exact` and `write` repeats. -/
def RW.dump_clear_if (rw : RW) (dump : Bool) : Except IOError Unit × RW :=
  if dump then
    match rw.flush_buffer with
    | (.ok _, rw1) => (.ok (), { rw1 with buffer := rw1.buffer.clear, n := 0 })
    | (.error e, rw1) => (.error e, rw1)
  else (.ok (), rw)

/-- `Read::read` for `BufReaderWriter`.  Returns (result, updated destination,
updated adapter). -/
def RW.read (rw : RW) (buf : List Nat) : Except IOError Nat × List Nat × RW :=
  match rw.buffer.get_read_command buf.length with
  | .Read nn =>
    let (k, part, b1) := rw.buffer.read (buf.take nn)
    (.ok k, part ++ buf.drop nn, { rw with buffer := b1 })
  | .FillRead dump_before_fill =>
    match rw.dump_clear_if dump_before_fill with
    | (.error e, rw1) => (.error e, buf, rw1)
    | (.ok _, rw1) =>
      let (k, b1, s1) := rw1.buffer.fill_from rw1.inner
      let rw2 := { rw1 with buffer := b1, inner := s1, pos := rw1.pos + k, n := k }
      let (k2, buf1, b2) := rw2.buffer.read buf
      (.ok k2, buf1, { rw2 with buffer := b2 })
  | .ReadDirect dump_before =>
    match rw.dump_clear_if dump_before with
    | (.error e, rw1) => (.error e, buf, rw1)
    | (.ok _, rw1) =>
      let (k, buf1, s1) := rw1.inner.read buf
      (.ok k, buf1, { rw1 with inner := s1, pos := rw1.pos + k })

/-- `Read::read_exact` for `BufReaderWriter`.  Returns (result, updated
destination, updated adapter). -/
def RW.read_exact (rw : RW) (buf : List Nat) : Except IOError Unit × List Nat × RW :=
  match rw.buffer.get_read_exact_command buf.length with
  | .Read =>
    let (_k, buf1, b1) := rw.buffer.read buf
    (.ok (), buf1, { rw with buffer := b1 })
  | .ReadFillRead split dump_before_fill =>
    let first := buf.take split
    let second := buf.drop split
    let (_k1, first1, b1) := rw.buffer.read first
    let rwa := { rw with buffer := b1 }
    match rwa.dump_clear_if dump_before_fill with
    | (.error e, rw1) => (.error e, first1 ++ second, rw1)
    | (.ok _, rw1) =>
      let (k, b2, s1) := rw1.buffer.fill_from rw1.inner
      let rw2 := { rw1 with buffer := b2, inner := s1, pos := rw1.pos + k, n := k }
      let (_k2, second1, b3) := rw2.buffer.read second
      (.ok (), first1 ++ second1, { rw2 with buffer := b3 })
  | .FillRead dump_before_fill =>
    -- dead branch in the source; note it does not update `self.n`
    match rw.dump_clear_if dump_before_fill with
    | (.error e, rw1) => (.error e, buf, rw1)
    | (.ok _, rw1) =>
      let (k, b1, s1) := rw1.buffer.fill_from rw1.inner
      let rw2 := { rw1 with buffer := b1, inner := s1, pos := rw1.pos + k }
      let (_k2, buf1, b2) := rw2.buffer.read buf
      (.ok (), buf1, { rw2 with buffer := b2 })
  | .ReadDirect dump_before =>
    match rw.dump_clear_if dump_before with
    | (.error e, rw1) => (.error e, buf, rw1)
    | (.ok _, rw1) =>
      let (k, buf1, s1) := rw1.inner.read buf
      (.ok (), buf1, { rw1 with inner := s1, pos := rw1.pos + k })
  | .ReadReadDirect split dump_before =>
    let first := buf.take split
    let second := buf.drop split
    let (_k1, first1, b1) := rw.buffer.read first
    let rwa := { rw with buffer := b1 }
    match rwa.dump_clear_if dump_before with
    | (.error e, rw1) => (.error e, first1 ++ second, rw1)
    | (.ok _, rw1) =>
      let (k, second1, s1) := rw1.inner.read second
      (.ok (), first1 ++ second1, { rw1 with inner := s1, pos := rw1.pos + k })

/-- `Write::write` for `BufReaderWriter`. -/
def RW.write (rw : RW) (buf : List Nat) : Except IOError Nat × RW :=
  match rw.buffer.get_write_exact_command buf.length with
  | .Write =>
    let (k, b1) := rw.buffer.write buf
    (.ok k, { rw with buffer := b1 })
  | .WriteDumpWrite nn =>
    let first := buf.take nn
    let second := buf.drop nn
    let (_k1, b1) := rw.buffer.write first
    let rwa := { rw with buffer := b1 }
    match rwa.flush_buffer with
    | (.error e, rw1) => (.error e, rw1)
    | (.ok _, rw1) =>
      let rw2 := { rw1 with buffer := rw1.buffer.clear, n := 0 }
      let (_k2, b2) := rw2.buffer.write second
      (.ok buf.length, { rw2 with buffer := b2 })
  | .DumpWriteDirect =>
    match rw.flush_buffer with
    | (.error e, rw1) => (.error e, rw1)
    | (.ok _, rw1) =>
      let rw2 := { rw1 with buffer := rw1.buffer.clear, n := 0 }
      let (k, s1) := rw2.inner.write buf
      (.ok k, { rw2 with inner := s1 })
  | .WriteDirect =>
    let (k, s1) := rw.inner.write buf
    (.ok k, { rw with inner := s1 })

/-- `Write::write_all` for `BufReaderWriter`: one `write` call, discarding the
count (the source only `debug_assert`s it equals the request length). -/
def RW.write_all (rw : RW) (buf : List Nat) : Except IOError Unit × RW :=
  match rw.write buf with
  | (.ok _, rw1) => (.ok (), rw1)
  | (.error e, rw1) => (.error e, rw1)

/-- `Write::flush` for `BufReaderWriter`: `flush_buffer`, clear, reset `n`,
then flush the inner stream. -/
def RW.flush (rw : RW) : Except IOError Unit × RW :=
  match rw.flush_buffer with
  | (.error e, rw1) => (.error e, rw1)
  | (.ok _, rw1) =>
    let rw2 := { rw1 with buffer := rw1.buffer.clear, n := 0 }
    (.ok (), { rw2 with inner := rw2.inner.flushStream })

/-- `BufReaderWriter::into_inner`: conditional `flush_buffer`, then hand the
stream back (the `ManuallyDrop` in the source prevents the drop-flush from
running again). -/
def RW.into_inner (rw : RW) : Except IOError MockStream :=
  if rw.buffer.is_dirty then
    match rw.flush_buffer with
    | (.ok _, rw1) => .ok rw1.inner
    | (.error e, _) => .error e
  else .ok rw.inner

/-- `Seek::seek` for `BufReaderWriter`, translated branch by branch. -/
def RW.seek (rw : RW) (seek_from : SeekFrom) : Except IOError Nat × RW :=
  match seek_from with
  | .start pos =>
    if rw.start_position_in_source ≤ pos ∧
        pos < rw.start_position_in_source + rw.buffer.num_valid_bytes then
      let rw1 := { rw with buffer := rw.buffer.set_position (pos - rw.start_position_in_source) }
      (.ok rw1.position, rw1)
    else
      match rw.flush_if_dirty with
      | (.error e, rw1) => (.error e, rw1)
      | (.ok _, rw1) =>
        let rw2 := { rw1 with buffer := rw1.buffer.clear }
        match rw2.inner.seek (.start pos) with
        | (.error e, s1) => (.error e, { rw2 with inner := s1 })
        | (.ok p, s1) =>
          let rw3 := { rw2 with inner := s1, pos := p, n := 0 }
          (.ok rw3.position, rw3)
  | .fromEnd pos =>
    match rw.flush_if_dirty with
    | (.error e, rw1) => (.error e, rw1)
    | (.ok _, rw1) =>
      let rw2 := { rw1 with buffer := rw1.buffer.clear }
      match rw2.inner.seek (.fromEnd pos) with
      | (.error e, s1) => (.error e, { rw2 with inner := s1 })
      | (.ok p, s1) =>
        let rw3 := { rw2 with inner := s1, pos := p, n := 0 }
        (.ok rw3.position, rw3)
  | .current direction =>
    if direction = 0 then
      (.ok rw.position, rw)
    else if direction < 0 then
      let abs_d := (-direction).toNat
      if abs_d > rw.buffer.position then
        if (abs_d : Nat) > rw.position then
          (.error .seekBeforeStart, rw)
        else
          match rw.flush_if_dirty with
          | (.error e, rw1) => (.error e, rw1)
          | (.ok _, rw1) =>
            match rw1.inner.seek
                (.current (direction - ((rw1.n : Int) - (rw1.buffer.position : Int)))) with
            | (.error e, s1) => (.error e, { rw1 with inner := s1 })
            | (.ok p, s1) =>
              let rw2 := { rw1 with inner := s1, pos := p, buffer := rw1.buffer.clear, n := 0 }
              (.ok rw2.pos, rw2)
      else
        let rw1 := { rw with buffer := rw.buffer.set_position (rw.buffer.position - abs_d) }
        (.ok rw1.position, rw1)
    else
      let amount := direction.toNat
      if amount ≥ rw.buffer.num_readable_bytes_left then
        let saved_positon : Int := rw.position
        match rw.flush_if_dirty with
        | (.error e, rw1) => (.error e, rw1)
        | (.ok _, rw1) =>
          let rw2 := { rw1 with buffer := rw1.buffer.clear, n := 0 }
          let new_position : Int := rw2.position
          match rw2.inner.seek (.current (saved_positon - new_position + direction)) with
          | (.error e, s1) => (.error e, { rw2 with inner := s1 })
          | (.ok p, s1) =>
            let rw3 := { rw2 with inner := s1, pos := p }
            (.ok rw3.position, rw3)
      else
        let rw1 := { rw with buffer := rw.buffer.set_position (rw.buffer.position + amount) }
        (.ok rw1.position, rw1)

/-- The write-seek-read round trip of the spec: construct a fresh adapter
over a plain cursor holding `data0` at position 0, `write_all` the
sequence, `seek` back to the start, `read_exact` the same number of bytes;
`some` of the bytes read on full success. -/
def roundTrip (cap : Nat) (seq data0 : List Nat) : Option (List Nat) :=
  let s0 : MockStream :=
    { data := data0, pos := 0, maxW := none, reads := 0, writes := 0, seeks := 0, flushes := 0 }
  let rw0 := RW.with_capacity s0 cap
  match rw0.write_all seq with
  | (.error _, _) => none
  | (.ok _, rw1) =>
    match rw1.seek (.start 0) with
    | (.error _, _) => none
    | (.ok _, rw2) =>
      match rw2.read_exact (List.replicate seq.length 0) with
      | (.error _, _, _) => none
      | (.ok _, dst, _) => some dst

/-! ## Invariants and claim theorems -/

/-- The Buffer invariant of the spec: `cursor ≤ filled ≤ capacity`. -/
def Buffer.inv (b : Buffer) : Prop := b.pos ≤ b.filled ∧ b.filled ≤ b.capacity

instance (b : Buffer) : Decidable b.inv := by unfold Buffer.inv; infer_instance

/-- C7: the Buffer invariant `cursor ≤ filled ≤ capacity` holds after
construction and is preserved by every Buffer operation (`fill_from`,
`read`, `write`, `set_position`, `clear`; `dump` takes the buffer
immutably and returns only the stream, so it cannot disturb it). -/
theorem claim_C7 (b : Buffer) (c p : Nat) (src dst : List Nat) (s : MockStream)
    (hb : Buffer.inv b) :
    Buffer.inv (Buffer.with_capacity c) ∧
    Buffer.inv (b.fill_from s).2.1 ∧
    Buffer.inv (b.read dst).2.2 ∧
    Buffer.inv (b.write src).2 ∧
    Buffer.inv (b.set_position p) ∧
    Buffer.inv b.clear := by
  obtain ⟨h1, h2⟩ := hb
  unfold Buffer.inv Buffer.capacity at *
  refine ⟨?_, ?_, ?_, ?_, ?_, ?_⟩
  · simp [Buffer.with_capacity]
  · simp only [Buffer.fill_from, MockStream.read, List.length_append, List.length_take,
      List.length_drop]
    omega
  · simp only [Buffer.read, Buffer.num_readable_bytes_left]
    omega
  · simp only [Buffer.write, Buffer.num_writable_bytes_left, Buffer.capacity]
    split
    · exact ⟨h1, h2⟩
    · simp only [List.length_append, List.length_take, List.length_drop]
      split <;> omega
  · simp only [Buffer.set_position]
    omega
  · simp [Buffer.clear]

/-- Witness for C7 at a concrete buffer satisfying the invariant. -/
theorem claim_C7_witness :
    Buffer.inv (Buffer.mk [5, 6] 1 2 true) ∧
    (Buffer.inv (Buffer.with_capacity 3) ∧
     Buffer.inv ((Buffer.mk [5, 6] 1 2 true).fill_from
        (MockStream.mk [1, 2, 3] 0 none 0 0 0 0)).2.1 ∧
     Buffer.inv ((Buffer.mk [5, 6] 1 2 true).read [0]).2.2 ∧
     Buffer.inv ((Buffer.mk [5, 6] 1 2 true).write [9]).2 ∧
     Buffer.inv ((Buffer.mk [5, 6] 1 2 true).set_position 2) ∧
     Buffer.inv (Buffer.mk [5, 6] 1 2 true).clear) :=
  ⟨by decide, claim_C7 (Buffer.mk [5, 6] 1 2 true) 3 2 [9] [0]
      (MockStream.mk [1, 2, 3] 0 none 0 0 0 0) (by decide)⟩

/-- C10: `get_read_exact_command` never returns the `FillRead` variant; its
final `else` branch is dead because the two preceding guards
(`num_readable_bytes_left ≥ len` and `num_readable_bytes_left < len`) are
exhaustive. -/
theorem claim_C10 (b : Buffer) (len : Nat) (d : Bool) :
    b.get_read_exact_command len ≠ ReadExactCommand.FillRead d := by
  unfold Buffer.get_read_exact_command
  split_ifs <;> simp_all

/-- C5: a relative backward seek whose magnitude exceeds the current logical
position fails with the seek-before-start error and leaves the whole
adapter state (logical position, buffer contents, dirty flag, and the
`pos`/`n` stream-cursor bookkeeping) exactly as it was. -/
theorem claim_C5 (rw : RW) (d : Int) (hd : d < 0)
    (hfar : rw.position < (-d).toNat) (_hwf : rw.n ≤ rw.pos) :
    rw.seek (.current d) = (.error .seekBeforeStart, rw) := by
  have hpos : rw.buffer.position ≤ rw.position := by
    unfold RW.position RW.start_position_in_source Buffer.position
    omega
  simp only [RW.seek]
  rw [if_neg (by omega : ¬ d = 0), if_pos hd,
    if_pos (by omega : (-d).toNat > rw.buffer.position),
    if_pos (by omega : (-d).toNat > rw.position)]

/-- Witness for C5: fresh adapter over a 5-byte stream, seek `Current(-6)`. -/
theorem claim_C5_witness :
    ((-6 : Int) < 0 ∧
      (RW.with_capacity (MockStream.mk [1, 2, 3, 4, 5] 0 none 0 0 0 0) 8).position <
        (-(-6 : Int)).toNat ∧
      (RW.with_capacity (MockStream.mk [1, 2, 3, 4, 5] 0 none 0 0 0 0) 8).n ≤
        (RW.with_capacity (MockStream.mk [1, 2, 3, 4, 5] 0 none 0 0 0 0) 8).pos) ∧
    (RW.with_capacity (MockStream.mk [1, 2, 3, 4, 5] 0 none 0 0 0 0) 8).seek
        (.current (-6)) =
      (.error .seekBeforeStart,
        RW.with_capacity (MockStream.mk [1, 2, 3, 4, 5] 0 none 0 0 0 0) 8) :=
  ⟨⟨by decide, by decide, by decide⟩,
    claim_C5 (RW.with_capacity (MockStream.mk [1, 2, 3, 4, 5] 0 none 0 0 0 0) 8)
      (-6) (by decide) (by decide) (by decide)⟩

/-- Concrete state for C1: capacity-4 adapter over a stream holding only two
bytes `[7, 9]`. -/
def rwC1 : RW := RW.with_capacity (MockStream.mk [7, 9] 0 none 0 0 0 0) 4

/-- C1 (failing evaluation): `read_exact` of 3 bytes from a 2-byte stream
returns `Ok` with the destination only partially filled (the sentinel `99`
in the last slot is untouched); the claimed `UnexpectedEof` error is never
produced (no such error exists anywhere in the code). -/
theorem claim_C1_bug :
    (rwC1.read_exact [99, 99, 99]).1 = .ok () ∧
    (rwC1.read_exact [99, 99, 99]).2.1 = [7, 9, 99] :=
  ⟨rfl, rfl⟩

/-- Concrete state for C4: capacity-2 adapter over an empty stream that
accepts at most one byte per write call. -/
def rwC4 : RW := RW.with_capacity (MockStream.mk [] 0 (some 1) 0 0 0 0) 2

/-- C4 (failing evaluation): `write_all` of 3 bytes through the bypass path
(`WriteDirect`) over a stream that accepts only one byte returns `Ok ()`
even though only one byte landed on the stream: the short write is not
surfaced as an error. -/
theorem claim_C4_bug :
    (rwC4.write_all [5, 6, 7]).1 = .ok () ∧
    (rwC4.write_all [5, 6, 7]).2.inner.data = [5] :=
  ⟨rfl, rfl⟩


/-- The absolute logical target of a from-start or from-current seek request
(a from-end target is not determined by the adapter state alone). -/
def RW.seekTarget (rw : RW) (sf : SeekFrom) (t : Nat) : Prop :=
  match sf with
  | .start p => t = p
  | .current d => (t : Int) = (rw.position : Int) + d
  | .fromEnd _ => False

/-- C3: a from-start or from-current seek whose target lies inside the
currently buffered valid range `[start_position_in_source,
start_position_in_source + filled)` performs no operation on the
underlying stream and only moves the buffer cursor: the stream (data,
position and all call counters), the `pos`/`n` bookkeeping, the buffer
data, the filled count and the dirty flag are all unchanged, and the
returned position is the target. -/
theorem claim_C3 (rw : RW) (sf : SeekFrom) (t : Nat)
    (_hwf1 : rw.n ≤ rw.pos) (hwf2 : rw.buffer.pos ≤ rw.buffer.filled)
    (ht : rw.seekTarget sf t)
    (hlo : rw.start_position_in_source ≤ t)
    (hhi : t < rw.start_position_in_source + rw.buffer.num_valid_bytes) :
    rw.seek sf =
      (.ok t, { rw with buffer := { rw.buffer with pos := t - rw.start_position_in_source } }) := by
  match sf with
  | .fromEnd o => exact absurd ht id
  | .start p =>
    simp only [RW.seekTarget] at ht
    subst ht
    simp only [RW.seek]
    rw [if_pos ⟨hlo, hhi⟩]
    simp only [RW.position, RW.start_position_in_source, Buffer.position, Buffer.set_position]
    simp only [RW.start_position_in_source, Buffer.num_valid_bytes] at hlo hhi
    have hmin : min (t - (rw.pos - rw.n)) rw.buffer.filled = t - (rw.pos - rw.n) := by omega
    rw [hmin]
    have harith : rw.pos - rw.n + (t - (rw.pos - rw.n)) = t := by omega
    rw [harith]
  | .current d =>
    simp only [RW.seekTarget] at ht
    simp only [RW.position, RW.start_position_in_source, Buffer.num_valid_bytes,
      Buffer.position] at ht hlo hhi
    rcases lt_trichotomy d 0 with hd | hd | hd
    · -- backward, inside the buffer
      have habs : ((-d).toNat : Int) = -d := by omega
      simp only [RW.seek]
      rw [if_neg (by omega : ¬ d = 0), if_pos hd]
      simp only [Buffer.position, Buffer.set_position, RW.position,
        RW.start_position_in_source]
      rw [if_neg (by omega : ¬ (-d).toNat > rw.buffer.pos)]
      have hmin : min (rw.buffer.pos - (-d).toNat) rw.buffer.filled
          = rw.buffer.pos - (-d).toNat := by omega
      rw [hmin]
      have harg : rw.buffer.pos - (-d).toNat = t - (rw.pos - rw.n) := by omega
      rw [harg]
      have harith : rw.pos - rw.n + (t - (rw.pos - rw.n)) = t := by omega
      rw [harith]
    · -- zero offset: free no-op
      subst hd
      simp only [RW.seek]
      rw [if_pos trivial]
      simp only [RW.position, RW.start_position_in_source, Buffer.position]
      have h1 : t = rw.pos - rw.n + rw.buffer.pos := by omega
      subst h1
      have h2 : rw.pos - rw.n + rw.buffer.pos - (rw.pos - rw.n) = rw.buffer.pos := by omega
      rw [h2]
    · -- forward, inside the buffer
      have habs : (d.toNat : Int) = d := by omega
      simp only [RW.seek]
      rw [if_neg (by omega : ¬ d = 0), if_neg (by omega : ¬ d < 0)]
      simp only [Buffer.position, Buffer.set_position, Buffer.num_readable_bytes_left,
        RW.position, RW.start_position_in_source]
      rw [if_neg (by omega : ¬ d.toNat ≥ rw.buffer.filled - rw.buffer.pos)]
      have hmin : min (rw.buffer.pos + d.toNat) rw.buffer.filled
          = rw.buffer.pos + d.toNat := by omega
      rw [hmin]
      have harg : rw.buffer.pos + d.toNat = t - (rw.pos - rw.n) := by omega
      rw [harg]
      have harith : rw.pos - rw.n + (t - (rw.pos - rw.n)) = t := by omega
      rw [harith]

/-- Witness for C3: adapter with buffered window `[2, 5)`, from-start seek to
3 resolves in memory (window start 2, target 4, buffer cursor moves 1 to 2). -/
theorem claim_C3_witness :
    ((RW.mk (MockStream.mk [0, 0, 10, 11, 12] 5 none 0 0 0 0) 5 3
        (Buffer.mk [10, 11, 12, 0] 1 3 false)).n ≤
      (RW.mk (MockStream.mk [0, 0, 10, 11, 12] 5 none 0 0 0 0) 5 3
        (Buffer.mk [10, 11, 12, 0] 1 3 false)).pos ∧
     (RW.mk (MockStream.mk [0, 0, 10, 11, 12] 5 none 0 0 0 0) 5 3
        (Buffer.mk [10, 11, 12, 0] 1 3 false)).buffer.pos ≤
      (RW.mk (MockStream.mk [0, 0, 10, 11, 12] 5 none 0 0 0 0) 5 3
        (Buffer.mk [10, 11, 12, 0] 1 3 false)).buffer.filled ∧
     (RW.mk (MockStream.mk [0, 0, 10, 11, 12] 5 none 0 0 0 0) 5 3
        (Buffer.mk [10, 11, 12, 0] 1 3 false)).seekTarget (.start 4) 4) ∧
    (RW.mk (MockStream.mk [0, 0, 10, 11, 12] 5 none 0 0 0 0) 5 3
        (Buffer.mk [10, 11, 12, 0] 1 3 false)).seek (.start 4) =
      (.ok 4, RW.mk (MockStream.mk [0, 0, 10, 11, 12] 5 none 0 0 0 0) 5 3
        (Buffer.mk [10, 11, 12, 0] 2 3 false)) :=
  ⟨⟨by decide, by decide, rfl⟩,
    claim_C3 (RW.mk (MockStream.mk [0, 0, 10, 11, 12] 5 none 0 0 0 0) 5 3
        (Buffer.mk [10, 11, 12, 0] 1 3 false))
      (.start 4) 4 (by decide) (by decide) rfl (by decide) (by decide)⟩

/-- On success, `flush_buffer` re-establishes `n ≤ pos` unconditionally
(the new `pos` is the dump base plus the dumped count, and the new `n` is
the dumped count), and never touches the buffer. -/
theorem flush_buffer_ok_n_le_pos {rw : RW} {u : Unit} {rw1 : RW}
    (h : rw.flush_buffer = (.ok u, rw1)) : rw1.n ≤ rw1.pos ∧ rw1.buffer = rw.buffer := by
  unfold RW.flush_buffer at h
  split at h
  · split at h
    · simp at h
    · split at h
      · simp only [Prod.mk.injEq] at h
        obtain ⟨-, rfl⟩ := h
        exact ⟨by dsimp only; omega, rfl⟩
      · simp at h
  · split at h
    · simp only [Prod.mk.injEq] at h
      obtain ⟨-, rfl⟩ := h
      exact ⟨by dsimp only; omega, rfl⟩
    · simp at h

/-- The repeated dump-then-clear block preserves `n ≤ pos` on success. -/
theorem dump_clear_if_n_le_pos {rw : RW} {b : Bool} {u : Unit} {rw1 : RW}
    (h : rw.dump_clear_if b = (.ok u, rw1)) (h0 : rw.n ≤ rw.pos) : rw1.n ≤ rw1.pos := by
  unfold RW.dump_clear_if at h
  split at h
  · split at h
    · simp only [Prod.mk.injEq] at h
      obtain ⟨-, rfl⟩ := h
      dsimp only
      omega
    · simp at h
  · simp only [Prod.mk.injEq] at h
    obtain ⟨-, rfl⟩ := h
    exact h0

/-- `read` preserves `n ≤ pos` on success. -/
theorem read_n_le_pos {rw : RW} (h : rw.n ≤ rw.pos) {buf : List Nat} {k : Nat}
    {buf1 : List Nat} {rw1 : RW} (hr : rw.read buf = (.ok k, buf1, rw1)) :
    rw1.n ≤ rw1.pos := by
  unfold RW.read at hr
  split at hr
  · simp only [Prod.mk.injEq] at hr
    obtain ⟨-, -, rfl⟩ := hr
    exact h
  · split at hr
    · simp at hr
    · simp only [Prod.mk.injEq] at hr
      obtain ⟨-, -, rfl⟩ := hr
      dsimp only
      omega
  · split at hr
    · simp at hr
    · rename_i u rwA heqd
      have hA := dump_clear_if_n_le_pos heqd h
      simp only [Prod.mk.injEq] at hr
      obtain ⟨-, -, rfl⟩ := hr
      dsimp only
      omega

/-- `read_exact` preserves `n ≤ pos` on success. -/
theorem read_exact_n_le_pos {rw : RW} (h : rw.n ≤ rw.pos) {buf : List Nat}
    {buf1 : List Nat} {rw1 : RW} (hr : rw.read_exact buf = (.ok (), buf1, rw1)) :
    rw1.n ≤ rw1.pos := by
  unfold RW.read_exact at hr
  split at hr
  · simp only [Prod.mk.injEq] at hr
    obtain ⟨-, -, rfl⟩ := hr
    exact h
  · dsimp only at hr
    split at hr
    · simp at hr
    · simp only [Prod.mk.injEq] at hr
      obtain ⟨-, -, rfl⟩ := hr
      dsimp only
      omega
  · dsimp only at hr
    split at hr
    · simp at hr
    · rename_i u rwA heqd
      have hA := dump_clear_if_n_le_pos heqd h
      simp only [Prod.mk.injEq] at hr
      obtain ⟨-, -, rfl⟩ := hr
      dsimp only
      omega
  · dsimp only at hr
    split at hr
    · simp at hr
    · rename_i u rwA heqd
      have hA := dump_clear_if_n_le_pos heqd h
      simp only [Prod.mk.injEq] at hr
      obtain ⟨-, -, rfl⟩ := hr
      dsimp only
      omega
  · dsimp only at hr
    split at hr
    · simp at hr
    · rename_i u rwA heqd
      have hA := dump_clear_if_n_le_pos heqd h
      simp only [Prod.mk.injEq] at hr
      obtain ⟨-, -, rfl⟩ := hr
      dsimp only
      omega

/-- `write` preserves `n ≤ pos` on success. -/
theorem write_n_le_pos {rw : RW} (h : rw.n ≤ rw.pos) {buf : List Nat} {k : Nat}
    {rw1 : RW} (hr : rw.write buf = (.ok k, rw1)) : rw1.n ≤ rw1.pos := by
  unfold RW.write at hr
  split at hr
  · simp only [Prod.mk.injEq] at hr
    obtain ⟨-, rfl⟩ := hr
    exact h
  · dsimp only at hr
    split at hr
    · simp at hr
    · simp only [Prod.mk.injEq] at hr
      obtain ⟨-, rfl⟩ := hr
      dsimp only
      omega
  · split at hr
    · simp at hr
    · simp only [Prod.mk.injEq] at hr
      obtain ⟨-, rfl⟩ := hr
      dsimp only
      omega
  · simp only [Prod.mk.injEq] at hr
    obtain ⟨-, rfl⟩ := hr
    exact h

/-- `flush` preserves `n ≤ pos` on success. -/
theorem flush_n_le_pos {rw : RW} {rw1 : RW} (hr : rw.flush = (.ok (), rw1)) :
    rw1.n ≤ rw1.pos := by
  unfold RW.flush at hr
  split at hr
  · simp at hr
  · simp only [Prod.mk.injEq] at hr
    obtain ⟨-, rfl⟩ := hr
    dsimp only
    omega

/-- `seek` preserves `n ≤ pos` on success. -/
theorem seek_n_le_pos {rw : RW} (h : rw.n ≤ rw.pos) {sf : SeekFrom} {p : Nat}
    {rw1 : RW} (hr : rw.seek sf = (.ok p, rw1)) : rw1.n ≤ rw1.pos := by
  unfold RW.seek at hr
  rcases sf with q | o | d
  · dsimp only at hr
    split at hr
    · simp only [Prod.mk.injEq, Except.ok.injEq] at hr
      obtain ⟨-, rfl⟩ := hr
      exact h
    · split at hr
      · simp at hr
      · split at hr
        · simp at hr
        · simp only [Prod.mk.injEq, Except.ok.injEq] at hr
          obtain ⟨-, rfl⟩ := hr
          dsimp only
          omega
  · dsimp only at hr
    split at hr
    · simp at hr
    · split at hr
      · simp at hr
      · simp only [Prod.mk.injEq, Except.ok.injEq] at hr
        obtain ⟨-, rfl⟩ := hr
        dsimp only
        omega
  · dsimp only at hr
    split at hr
    · simp only [Prod.mk.injEq, Except.ok.injEq] at hr
      obtain ⟨-, rfl⟩ := hr
      exact h
    · split at hr
      · split at hr
        · split at hr
          · simp at hr
          · split at hr
            · simp at hr
            · split at hr
              · simp at hr
              · simp only [Prod.mk.injEq, Except.ok.injEq] at hr
                obtain ⟨-, rfl⟩ := hr
                dsimp only
                omega
        · simp only [Prod.mk.injEq, Except.ok.injEq] at hr
          obtain ⟨-, rfl⟩ := hr
          exact h
      · split at hr
        · split at hr
          · simp at hr
          · split at hr
            · simp at hr
            · simp only [Prod.mk.injEq, Except.ok.injEq] at hr
              obtain ⟨-, rfl⟩ := hr
              dsimp only
              omega
        · simp only [Prod.mk.injEq, Except.ok.injEq] at hr
          obtain ⟨-, rfl⟩ := hr
          exact h

/-- C9: the stream-cursor invariant `n ≤ pos` (so `pos - n` in
`start_position_in_source`, and hence in `position`, never underflows)
holds for a freshly constructed adapter and is preserved by every public
operation (`read`, `read_exact`, `write`, `flush`, `seek`) that returns
without error. -/
theorem claim_C9 (rw : RW) (h : rw.n ≤ rw.pos) :
    (∀ s c, (RW.with_capacity s c).n ≤ (RW.with_capacity s c).pos) ∧
    (∀ buf k buf1 rw1, rw.read buf = (.ok k, buf1, rw1) → rw1.n ≤ rw1.pos) ∧
    (∀ buf buf1 rw1, rw.read_exact buf = (.ok (), buf1, rw1) → rw1.n ≤ rw1.pos) ∧
    (∀ buf k rw1, rw.write buf = (.ok k, rw1) → rw1.n ≤ rw1.pos) ∧
    (∀ rw1, rw.flush = (.ok (), rw1) → rw1.n ≤ rw1.pos) ∧
    (∀ sf p rw1, rw.seek sf = (.ok p, rw1) → rw1.n ≤ rw1.pos) :=
  ⟨fun _ _ => Nat.le_refl 0,
    fun _ _ _ _ hr => read_n_le_pos h hr,
    fun _ _ _ hr => read_exact_n_le_pos h hr,
    fun _ _ _ hr => write_n_le_pos h hr,
    fun _ hr => flush_n_le_pos hr,
    fun _ _ _ hr => seek_n_le_pos h hr⟩

/-- Witness for C9 at a concrete mid-stream state with `n = 3 ≤ pos = 5`. -/
theorem claim_C9_witness :
    (RW.mk (MockStream.mk [0, 0, 10, 11, 12] 5 none 0 0 0 0) 5 3
        (Buffer.mk [10, 11, 12, 0] 1 3 false)).n ≤
      (RW.mk (MockStream.mk [0, 0, 10, 11, 12] 5 none 0 0 0 0) 5 3
        (Buffer.mk [10, 11, 12, 0] 1 3 false)).pos ∧
    (∀ sf p rw1,
      (RW.mk (MockStream.mk [0, 0, 10, 11, 12] 5 none 0 0 0 0) 5 3
        (Buffer.mk [10, 11, 12, 0] 1 3 false)).seek sf = (.ok p, rw1) →
        rw1.n ≤ rw1.pos) :=
  ⟨by decide,
    (claim_C9 (RW.mk (MockStream.mk [0, 0, 10, 11, 12] 5 none 0 0 0 0) 5 3
        (Buffer.mk [10, 11, 12, 0] 1 3 false)) (by decide)).2.2.2.2.2⟩

/-- Writing nothing succeeds without touching the stream, for any fuel. -/
theorem writeAllAux_nil (fuel : Nat) (s : MockStream) :
    MockStream.writeAllAux fuel s [] = (.ok (), s) := by
  cases fuel <;> simp [MockStream.writeAllAux]

/-- On a plain cursor (`maxW = none`), `write_all` is a single `write` call
accepting everything (and no call at all for an empty source). -/
theorem writeAll_maxW_none (s : MockStream) (src : List Nat) (hm : s.maxW = none) :
    s.writeAll src = (.ok (), if src.isEmpty then s else (s.write src).2) := by
  unfold MockStream.writeAll
  cases src with
  | nil => simp [MockStream.writeAllAux]
  | cons a l =>
    simp only [List.length_cons, MockStream.writeAllAux, List.isEmpty_cons, if_false,
      MockStream.write, hm]
    simp [List.drop_length, writeAllAux_nil]

/-- `dump` on a plain cursor: succeeds, one write call (none when empty). -/
theorem dump_maxW_none (b : Buffer) (s : MockStream) (hm : s.maxW = none) :
    b.dump s = (.ok b.filled,
      if (b.data.take b.filled).isEmpty then s else (s.write (b.data.take b.filled)).2) := by
  unfold Buffer.dump
  rw [writeAll_maxW_none _ _ hm]

/-- The effect of one plain-cursor `write` call: the written bytes are
readable back at the old position, the position advances by the source
length, and `maxW`/`flushes` are untouched. -/
theorem write_none_spec (s : MockStream) (src : List Nat) (hm : s.maxW = none) :
    ((s.write src).2.data.drop s.pos).take src.length = src ∧
    (s.write src).2.pos = s.pos + src.length ∧
    (s.write src).2.maxW = none ∧
    (s.write src).2.flushes = s.flushes := by
  unfold MockStream.write
  rw [hm]
  dsimp only
  refine ⟨?_, rfl, rfl, rfl⟩
  rw [List.take_length]
  have hlen : ((s.data ++ List.replicate (s.pos - s.data.length) 0).take s.pos).length
      = s.pos := by
    simp only [List.length_take, List.length_append, List.length_replicate]
    omega
  rw [List.append_assoc, List.drop_left' hlen, List.take_left]

/-- `dump` on a plain cursor: succeeds with the full valid region written at
the current stream position, advancing it by `filled`. -/
theorem dump_none_spec (b : Buffer) (s : MockStream) (hm : s.maxW = none)
    (hfc : b.filled ≤ b.data.length) :
    ∃ s2, b.dump s = (.ok b.filled, s2) ∧ s2.pos = s.pos + b.filled ∧ s2.maxW = none ∧
      s2.flushes = s.flushes ∧
      (s2.data.drop s.pos).take b.filled = b.data.take b.filled := by
  rw [dump_maxW_none _ _ hm]
  by_cases hf : (b.data.take b.filled).isEmpty
  · have hnil := List.isEmpty_iff.mp hf
    have hlen := congrArg List.length hnil
    simp only [List.length_take, List.length_nil] at hlen
    have hf0 : b.filled = 0 := by omega
    refine ⟨s, by rw [if_pos hf], by omega, hm, rfl, ?_⟩
    rw [hf0]
    simp
  · have hw := write_none_spec s (b.data.take b.filled) hm
    have hmin : (b.data.take b.filled).length = b.filled := by
      simp only [List.length_take]
      omega
    refine ⟨(s.write (b.data.take b.filled)).2, by rw [if_neg hf], ?_, hw.2.2.1,
      hw.2.2.2, ?_⟩
    · rw [hw.2.1, hmin]
    · have h1 := hw.1
      rw [hmin] at h1
      exact h1

/-- Full success specification of `flush_buffer` over a plain cursor whose
position agrees with the adapter bookkeeping: the whole valid buffer region
lands at `start_position_in_source`, the bookkeeping moves to the end of
that region, the buffer itself is untouched, and the stream flush counter
does not move. -/
theorem flush_buffer_spec (rw : RW) (hs : rw.inner.pos = rw.pos) (hnp : rw.n ≤ rw.pos)
    (hmw : rw.inner.maxW = none) (hfc : rw.buffer.filled ≤ rw.buffer.capacity) :
    ∃ s2 : MockStream,
      rw.flush_buffer = (.ok (),
        { rw with inner := s2,
                  pos := rw.start_position_in_source + rw.buffer.filled,
                  n := rw.buffer.filled }) ∧
      s2.pos = rw.start_position_in_source + rw.buffer.filled ∧
      s2.maxW = none ∧
      s2.flushes = rw.inner.flushes ∧
      (s2.data.drop rw.start_position_in_source).take rw.buffer.filled
        = rw.buffer.data.take rw.buffer.filled := by
  by_cases hn : rw.n ≠ 0
  · have hseek : rw.inner.seek (.current (-(rw.n : Int)))
        = (.ok (rw.pos - rw.n),
           { rw.inner with seeks := rw.inner.seeks + 1, pos := rw.pos - rw.n }) := by
      unfold MockStream.seek MockStream.seekCall
      dsimp only
      rw [if_neg (by omega : ¬ ((rw.inner.pos : Int) + -(rw.n : Int) < 0))]
      have h1 : ((rw.inner.pos : Int) + -(rw.n : Int)).toNat = rw.pos - rw.n := by omega
      rw [h1]
    obtain ⟨s2, hd, hp, hm2, hfl, hdata⟩ := dump_none_spec rw.buffer
      ({ rw.inner with seeks := rw.inner.seeks + 1, pos := rw.pos - rw.n }) hmw hfc
    unfold RW.flush_buffer
    rw [if_pos hn, hseek]
    dsimp only
    rw [hd]
    exact ⟨s2, rfl, hp, hm2, hfl, hdata⟩
  · have hn0 : rw.n = 0 := by omega
    obtain ⟨s2, hd, hp, hm2, hfl, hdata⟩ := dump_none_spec rw.buffer rw.inner hmw hfc
    unfold RW.flush_buffer
    rw [if_neg hn, hd]
    refine ⟨s2, ?_, ?_, hm2, hfl, ?_⟩
    · simp only [RW.start_position_in_source, hn0, Nat.sub_zero]
    · rw [hp, hs]
      simp only [RW.start_position_in_source, hn0, Nat.sub_zero]
    · rw [hs] at hdata
      simp only [RW.start_position_in_source, hn0, Nat.sub_zero]
      exact hdata

/-- C6: after a successful `flush` (on a plain-cursor stream whose position
agrees with the adapter bookkeeping), the buffer valid region — in
particular any dirty bytes — has been written to the stream at
`start_position_in_source`, the buffer is cleared (cursor 0, no valid
bytes, dirty flag false, and `n` reset), and the underlying stream flush
has been invoked exactly once. -/
theorem claim_C6 (rw : RW) (hs : rw.inner.pos = rw.pos) (hnp : rw.n ≤ rw.pos)
    (hmw : rw.inner.maxW = none) (hfc : rw.buffer.filled ≤ rw.buffer.capacity) :
    (rw.flush).1 = .ok () ∧
    ((rw.flush).2.inner.data.drop rw.start_position_in_source).take rw.buffer.filled
      = rw.buffer.data.take rw.buffer.filled ∧
    (rw.flush).2.buffer.pos = 0 ∧
    (rw.flush).2.buffer.filled = 0 ∧
    (rw.flush).2.buffer.is_dirty = false ∧
    (rw.flush).2.n = 0 ∧
    (rw.flush).2.inner.flushes = rw.inner.flushes + 1 := by
  obtain ⟨s2, hfb, hpos, hm2, hfl, hdata⟩ := flush_buffer_spec rw hs hnp hmw hfc
  unfold RW.flush
  rw [hfb]
  dsimp only
  refine ⟨rfl, ?_, rfl, rfl, rfl, rfl, ?_⟩
  · exact hdata
  · simp [MockStream.flushStream, hfl]

/-- Witness for C6: dirty three-byte buffer over the window starting at
stream offset 1, one byte already consumed. -/
theorem claim_C6_witness :
    ((RW.mk (MockStream.mk [1, 2, 3, 4] 3 none 0 0 0 0) 3 2
        (Buffer.mk [7, 8, 9] 1 3 true)).inner.pos =
      (RW.mk (MockStream.mk [1, 2, 3, 4] 3 none 0 0 0 0) 3 2
        (Buffer.mk [7, 8, 9] 1 3 true)).pos) ∧
    (((RW.mk (MockStream.mk [1, 2, 3, 4] 3 none 0 0 0 0) 3 2
        (Buffer.mk [7, 8, 9] 1 3 true)).flush).1 = .ok () ∧
     (((RW.mk (MockStream.mk [1, 2, 3, 4] 3 none 0 0 0 0) 3 2
        (Buffer.mk [7, 8, 9] 1 3 true)).flush).2.inner.flushes =
      (RW.mk (MockStream.mk [1, 2, 3, 4] 3 none 0 0 0 0) 3 2
        (Buffer.mk [7, 8, 9] 1 3 true)).inner.flushes + 1)) :=
  ⟨rfl,
    (claim_C6 (RW.mk (MockStream.mk [1, 2, 3, 4] 3 none 0 0 0 0) 3 2
        (Buffer.mk [7, 8, 9] 1 3 true)) rfl (by decide) rfl (by decide)).1,
    (claim_C6 (RW.mk (MockStream.mk [1, 2, 3, 4] 3 none 0 0 0 0) 3 2
        (Buffer.mk [7, 8, 9] 1 3 true)) rfl (by decide) rfl (by decide)).2.2.2.2.2.2⟩

/-- Stream seeks never touch the flush counter. -/
theorem seek_flushes (s : MockStream) (sf : SeekFrom) :
    ((s.seek sf).2).flushes = s.flushes := by
  unfold MockStream.seek MockStream.seekCall
  rcases sf <;> dsimp only <;> split <;> rfl

/-- `write_all` on the stream never touches the flush counter. -/
theorem writeAllAux_flushes (fuel : Nat) : ∀ (s : MockStream) (src : List Nat),
    ((MockStream.writeAllAux fuel s src).2).flushes = s.flushes := by
  induction fuel with
  | zero =>
    intro s src
    unfold MockStream.writeAllAux
    split <;> rfl
  | succ m ih =>
    intro s src
    unfold MockStream.writeAllAux
    split
    · rfl
    · dsimp only
      split
      · rfl
      · rw [ih]
        rfl

/-- `dump` never touches the flush counter. -/
theorem dump_flushes (b : Buffer) (s : MockStream) :
    ((b.dump s).2).flushes = s.flushes := by
  have hall : ((s.writeAll (b.data.take b.filled)).2).flushes = s.flushes :=
    writeAllAux_flushes _ _ _
  unfold Buffer.dump
  split <;> rename_i s1 heq <;> rw [heq] at hall <;> exact hall

/-- `flush_buffer` never invokes the stream flush, whatever the outcome. -/
theorem flush_buffer_flushes (rw : RW) :
    ((rw.flush_buffer).2).inner.flushes = rw.inner.flushes := by
  unfold RW.flush_buffer
  split
  · split
    · rename_i e s1 heq
      have h1 := seek_flushes rw.inner (SeekFrom.current (-(rw.n : Int)))
      rw [heq] at h1
      exact h1
    · rename_i p s1 heq
      have h1 := seek_flushes rw.inner (SeekFrom.current (-(rw.n : Int)))
      rw [heq] at h1
      split
      · rename_i k s2 heq2
        have h2 := dump_flushes rw.buffer s1
        rw [heq2] at h2
        show s2.flushes = rw.inner.flushes
        rw [h2]
        exact h1
      · rename_i e s2 heq2
        have h2 := dump_flushes rw.buffer s1
        rw [heq2] at h2
        show s2.flushes = rw.inner.flushes
        rw [h2]
        exact h1
  · split
    · rename_i k s2 heq2
      have h2 := dump_flushes rw.buffer rw.inner
      rw [heq2] at h2
      exact h2
    · rename_i e s2 heq2
      have h2 := dump_flushes rw.buffer rw.inner
      rw [heq2] at h2
      exact h2

/-- Concrete dirty state for C8: two dirty bytes buffered at stream offset 0. -/
def rwC8 : RW :=
  RW.mk (MockStream.mk [1, 2, 3] 0 none 0 0 0 0) 0 0 (Buffer.mk [21, 22, 0, 0] 2 2 true)

/-- C8 counterexample: on a concrete dirty state, `into_inner` succeeds but
hands back a stream whose own flush was never invoked (counter 0), whereas
the public `flush` contract on the same state invokes it (counter 1):
`into_inner` does not perform the same flush as the public flush contract. -/
theorem claim_C8_counterexample :
    (RW.into_inner rwC8).map MockStream.flushes = .ok 0 ∧
    ((rwC8.flush).1 = .ok () ∧ ((rwC8.flush).2).inner.flushes = 1) :=
  ⟨rfl, rfl, rfl⟩

/-- C8 (amended): on a dirty buffer, `into_inner` performs exactly the
buffer flush `flush_buffer` (which writes the dirty bytes to the stream)
and hands back the resulting stream without invoking the stream flush,
propagating any error of that flush to the caller; nothing further (in
particular no second drop-finalisation) is applied to the returned
stream. -/
theorem claim_C8_amended (rw : RW) (hd : rw.buffer.is_dirty = true) :
    (∀ e rw1, rw.flush_buffer = (.error e, rw1) → RW.into_inner rw = .error e) ∧
    (∀ u rw1, rw.flush_buffer = (.ok u, rw1) →
      RW.into_inner rw = .ok rw1.inner ∧ rw1.inner.flushes = rw.inner.flushes) := by
  constructor
  · intro e rw1 hfb
    unfold RW.into_inner
    rw [if_pos hd, hfb]
  · intro u rw1 hfb
    refine ⟨?_, ?_⟩
    · unfold RW.into_inner
      rw [if_pos hd, hfb]
    · have h := flush_buffer_flushes rw
      rw [hfb] at h
      exact h

/-- Witness for the amended C8 at the concrete dirty state. -/
theorem claim_C8_amended_witness :
    rwC8.buffer.is_dirty = true ∧
    (RW.into_inner rwC8 = .ok ((rwC8.flush_buffer).2).inner ∧
      ((rwC8.flush_buffer).2).inner.flushes = rwC8.inner.flushes) :=
  ⟨rfl, (claim_C8_amended rwC8 rfl).2 () ((rwC8.flush_buffer).2) rfl⟩

/-- A write smaller than the capacity of a fresh buffer is classified
`Write`. -/
theorem cmd_write_small (cap L : Nat) (h : L < cap) :
    (Buffer.with_capacity cap).get_write_exact_command L = .Write := by
  simp only [Buffer.get_write_exact_command, Buffer.with_capacity,
    Buffer.num_writable_bytes_left, Buffer.num_valid_bytes, Buffer.capacity,
    List.length_replicate]
  rw [if_neg (by omega), if_pos (by omega)]

/-- Writing a nonempty sequence that fits into a fresh buffer. -/
theorem buffer_write_fresh (cap : Nat) (seq : List Nat) (h : seq.length ≤ cap)
    (hp : 0 < seq.length) :
    (Buffer.with_capacity cap).write seq
      = (seq.length,
         Buffer.mk (seq ++ (List.replicate cap 0).drop seq.length)
           seq.length seq.length true) := by
  simp only [Buffer.write, Buffer.with_capacity, Buffer.num_writable_bytes_left,
    Buffer.capacity, List.length_replicate, Nat.sub_zero]
  have hmin : min cap seq.length = seq.length := by omega
  rw [hmin, if_neg (by omega), if_pos (by omega)]
  simp [List.take_length]

/-- A from-start seek to 0 with the whole (nonempty) valid region buffered at
stream offset 0 only rewinds the buffer cursor. -/
theorem seek_start0_in_buffer (s0 : MockStream) (d : List Nat) (L : Nat) (hp : 0 < L) :
    (RW.mk s0 0 0 (Buffer.mk d L L true)).seek (.start 0)
      = (.ok 0, RW.mk s0 0 0 (Buffer.mk d 0 L true)) := by
  unfold RW.seek
  dsimp only
  rw [if_pos (by
    constructor
    · exact Nat.le_refl 0
    · simp only [RW.start_position_in_source, Buffer.num_valid_bytes]
      omega)]
  simp [RW.position, RW.start_position_in_source, Buffer.set_position, Buffer.position]

/-- An exact read of the whole buffered prefix `seq` (with room left in the
buffer) is served from the buffer and returns exactly `seq`. -/
theorem read_exact_from_buffer (s0 : MockStream) (pz nz : Nat) (seq rest : List Nat)
    (hrest : 0 < rest.length) (dst : List Nat) (hdst : dst.length = seq.length) :
    (RW.mk s0 pz nz (Buffer.mk (seq ++ rest) 0 seq.length true)).read_exact dst
      = (.ok (), seq, RW.mk s0 pz nz (Buffer.mk (seq ++ rest) seq.length seq.length true)) := by
  have hcmd : (Buffer.mk (seq ++ rest) 0 seq.length true).get_read_exact_command dst.length
      = ReadExactCommand.Read := by
    simp only [Buffer.get_read_exact_command, Buffer.capacity, Buffer.has_readable_bytes_left,
      Buffer.num_readable_bytes_left, List.length_append]
    rw [if_neg (by omega), if_pos (by omega)]
  unfold RW.read_exact
  rw [hcmd]
  simp only [Buffer.read, Buffer.num_readable_bytes_left, Nat.sub_zero, hdst, Nat.min_self,
    List.drop_zero, List.take_left]
  rw [← hdst, List.drop_length, List.append_nil, Nat.zero_add]

/-- `dump_clear_if` with a false flag does nothing. -/
theorem dump_clear_if_false (rw : RW) : rw.dump_clear_if false = (.ok (), rw) := by
  unfold RW.dump_clear_if
  simp

/-- `flush_if_dirty` on a clean buffer does nothing. -/
theorem flush_if_dirty_clean (rw : RW) (h : rw.buffer.is_dirty = false) :
    rw.flush_if_dirty = (.ok (), rw) := by
  unfold RW.flush_if_dirty
  rw [h]
  simp

/-- A fresh-buffer write of at least the capacity is classified
`WriteDirect` and goes straight to the cursor at position 0. -/
theorem write_direct_fresh (cap : Nat) (seq data0 : List Nat) (h : cap ≤ seq.length) :
    (RW.with_capacity (MockStream.mk data0 0 none 0 0 0 0) cap).write seq
      = (.ok seq.length,
         RW.mk (MockStream.mk (seq ++ data0.drop seq.length) seq.length none 0 1 0 0)
           0 0 (Buffer.with_capacity cap)) := by
  have hcmd : (Buffer.with_capacity cap).get_write_exact_command seq.length
      = WriteAllCommand.WriteDirect := by
    simp only [Buffer.get_write_exact_command, Buffer.with_capacity, Buffer.capacity,
      Buffer.num_valid_bytes, List.length_replicate]
    rw [if_pos (by omega)]
    simp
  unfold RW.write RW.with_capacity
  dsimp only
  rw [hcmd]
  unfold MockStream.write
  simp [List.take_length]

/-- A from-start seek to 0 on a fresh (empty) buffer delegates to the
stream. -/
theorem seek_start0_fresh (s1 : MockStream) (cap : Nat) :
    (RW.mk s1 0 0 (Buffer.with_capacity cap)).seek (.start 0)
      = (.ok 0,
         RW.mk { s1 with pos := 0, seeks := s1.seeks + 1 } 0 0 (Buffer.with_capacity cap)) := by
  unfold RW.seek
  dsimp only
  rw [if_neg (by
    simp only [RW.start_position_in_source, Buffer.num_valid_bytes, Buffer.with_capacity]
    omega)]
  rw [flush_if_dirty_clean _ rfl]
  dsimp only
  unfold MockStream.seek MockStream.seekCall
  dsimp only
  rw [if_neg (by omega)]
  simp [RW.position, RW.start_position_in_source, Buffer.position, Buffer.clear,
    Buffer.with_capacity]

/-- An exact read of at least the capacity from a fresh buffer bypasses it
and reads the prefix directly from the cursor at position 0. -/
theorem read_direct_fresh (cap : Nat) (seq tail : List Nat) (r w sk f : Nat)
    (h : cap ≤ seq.length) (dst : List Nat) (hdst : dst.length = seq.length) :
    (RW.mk (MockStream.mk (seq ++ tail) 0 none r w sk f) 0 0
        (Buffer.with_capacity cap)).read_exact dst
      = (.ok (), seq,
         RW.mk (MockStream.mk (seq ++ tail) seq.length none (r + 1) w sk f) seq.length 0
           (Buffer.with_capacity cap)) := by
  have hcmd : (Buffer.with_capacity cap).get_read_exact_command dst.length
      = ReadExactCommand.ReadDirect false := by
    simp only [Buffer.get_read_exact_command, Buffer.with_capacity, Buffer.capacity,
      Buffer.has_readable_bytes_left, List.length_replicate]
    rw [if_pos (by omega)]
    simp
  unfold RW.read_exact
  rw [hcmd]
  dsimp only
  rw [dump_clear_if_false]
  dsimp only
  unfold MockStream.read
  dsimp only
  have hn : min dst.length ((seq ++ tail).length - 0) = seq.length := by
    simp only [List.length_append]
    omega
  rw [hn, List.drop_zero, List.take_left, ← hdst, List.drop_length, List.append_nil, hdst]
  simp

/-- C2 (round trip): writing any byte sequence through a fresh adapter over a
plain cursor, seeking back to the start, and exact-reading the same number
of bytes yields exactly the written bytes — whether the capacity is
smaller than, equal to, or larger than the sequence length. -/
theorem claim_C2 (cap : Nat) (seq data0 : List Nat) :
    roundTrip cap seq data0 = some seq := by
  unfold roundTrip
  dsimp only
  by_cases hcap : seq.length < cap
  · by_cases hL : seq.length = 0
    · have hnil : seq = [] := List.eq_nil_of_length_eq_zero hL
      subst hnil
      have hcap0 : 0 < cap := by simpa using hcap
      unfold RW.write_all RW.write RW.with_capacity
      dsimp only
      simp only [List.length_nil]
      rw [cmd_write_small cap 0 hcap0]
      have hw0 : (Buffer.with_capacity cap).write [] = (0, Buffer.with_capacity cap) := by
        unfold Buffer.write
        simp
      rw [hw0]
      dsimp only
      rw [seek_start0_fresh]
      dsimp only
      have hcmd0 : (Buffer.with_capacity cap).get_read_exact_command 0
          = ReadExactCommand.Read := by
        simp only [Buffer.get_read_exact_command, Buffer.with_capacity, Buffer.capacity,
          Buffer.has_readable_bytes_left, Buffer.num_readable_bytes_left,
          List.length_replicate]
        rw [if_neg (by omega), if_pos (by omega)]
      unfold RW.read_exact
      dsimp only
      simp only [List.replicate_zero, List.length_nil]
      rw [hcmd0]
      dsimp only
      unfold Buffer.read
      simp
    · have hw := buffer_write_fresh cap seq (by omega) (by omega)
      unfold RW.write_all RW.write RW.with_capacity
      dsimp only
      rw [cmd_write_small cap seq.length hcap, hw]
      dsimp only
      rw [seek_start0_in_buffer _ _ _ (by omega)]
      dsimp only
      rw [read_exact_from_buffer _ 0 0 seq ((List.replicate cap 0).drop seq.length)
        (by simp only [List.length_drop, List.length_replicate]; omega)
        (List.replicate seq.length 0) (by simp)]
  · push_neg at hcap
    unfold RW.write_all
    rw [write_direct_fresh cap seq data0 hcap]
    dsimp only
    rw [seek_start0_fresh]
    dsimp only
    rw [read_direct_fresh cap seq (data0.drop seq.length) 0 1 1 0 hcap
      (List.replicate seq.length 0) (by simp)]
